import Mathlib

/-!
Verification of the per-camera video-processing pipeline of the
AI-security-surveillance repository (src/video_processor.py, src/main.py).

The pixel content of frames is irrelevant to every property below: the only
attribute the pipeline logic reads from a frame is its shape, so a frame is
modelled by its dimensions (for `detect_fall`) or by an opaque identifier
(for queue contents).  Python floats on the small decimal constants and
integer box coordinates are modelled exactly by `ℚ`.
-/

/-- Bounding box `[x1, y1, x2, y2]` in pixel coordinates, as produced at
`video_processor.py` line 64 (`map(int, box.xyxy[0])`) and stored in the
`bbox` entry of a detection dict. -/
structure BBox where
  x1 : Int
  y1 : Int
  x2 : Int
  y2 : Int
deriving DecidableEq, Repr

/-- A detection dict `{bbox, confidence, id}` as appended at
`video_processor.py` lines 65-69. -/
structure Detection where
  bbox : BBox
  confidence : ℚ
  id : Nat
deriving DecidableEq, Repr

/-- The only data `detect_fall` reads from the frame argument is
`frame.shape[:2] = (height, width)` (line 94), so a frame is modelled by its
dimensions. -/
structure Frame where
  height : Nat
  width : Nat
deriving DecidableEq, Repr

/-- Mutable state of a `VideoProcessor` instance (`__init__`, lines 10-24).
The YOLO model and the worker `Thread` handle are modelled separately
(`detect_people` receives the model explicitly; thread liveness is modelled
by `CameraWorkers`), and the annotated frames held in `frame_queue` are
abstracted to identifiers. -/
structure VideoProcessor where
  camera_id : Nat
  running : Bool
  frame_queue : List Nat
  total_people_count : Nat
  max_people_count : Nat
  frame_count : Nat
  fall_history : List Bool
deriving DecidableEq, Repr

namespace VideoProcessor

/-- Fresh instance state set by `__init__` (lines 10-24): `running = False`,
all counters zero, empty queue and history. -/
def init (camera_id : Nat) : VideoProcessor :=
  { camera_id := camera_id
    running := false
    frame_queue := []
    total_people_count := 0
    max_people_count := 0
    frame_count := 0
    fall_history := [] }

/-- Embedding of `detect_fall` (lines 76-104).  The source iterates over the
detections in order; for each it computes `width`, `height`; when `width > 0`
it computes the aspect ratio and box centre and, if all three threshold tests
pass, sets the verdict and `break`s; a detection with `width <= 0` is skipped.
The method reads no attribute of `self`, which the `self` parameter makes
explicit. -/
def detect_fall (self : VideoProcessor) (detections : List Detection) (frame : Frame) :
    Bool × Option BBox :=
  match detections with
  | [] => (false, none)
  | detection :: rest =>
    let width : Int := detection.bbox.x2 - detection.bbox.x1
    let height : Int := detection.bbox.y2 - detection.bbox.y1
    if 0 < width then
      if (height : ℚ) / (width : ℚ) < 0.8
          ∧ ((detection.bbox.y1 : ℚ) + (detection.bbox.y2 : ℚ)) / 2
              > (frame.height : ℚ) * 0.6
          ∧ (height : ℚ) > (frame.height : ℚ) * 0.3 then
        (true, some detection.bbox)
      else detect_fall self rest frame
    else detect_fall self rest frame

/-- Counter updates performed by `draw_statistics` (lines 136-139) as a side
effect of drawing the overlay; the pixel operations on `frame` are not
modelled, the counter mutation of `self` is returned.  `fall_detected` only
affects drawing (lines 156-160), never the counters. -/
def draw_statistics (self : VideoProcessor) (frame : Frame) (people_count : Nat)
    (fall_detected : Bool) : VideoProcessor :=
  { self with
    total_people_count := self.total_people_count + people_count
    frame_count := self.frame_count + 1
    max_people_count := max self.max_people_count people_count }

/-- The running average rendered at lines 163-164:
`avg_count = self.total_people_count / max(self.frame_count, 1)`. -/
def avg_count (self : VideoProcessor) : ℚ :=
  (self.total_people_count : ℚ) / ((max self.frame_count 1 : Nat) : ℚ)

/-- Embedding of `stop` (lines 299-309): set `running = False`, join the
worker thread with `timeout=2` (the join outcome, completed or timed out, is
the ignored `join_completed` argument — the method proceeds identically either
way), then drain `frame_queue` with `get_nowait` until empty. -/
def stop (self : VideoProcessor) (join_completed : Bool) : VideoProcessor :=
  { self with running := false, frame_queue := [] }

/-- One iteration of the worker loop of `process_video_file` (lines 178-204)
summarised by its outcome: `Except.ok f` when the body produced annotated
frame `f`, `Except.error e` when some step of the body (fall classification,
annotation, status update, enqueue — none of which sit inside a try/except)
raised exception `e`.  The loop body contains no exception handler, so a
raised exception propagates out of the `while`, the remaining iterations never
run, and the `Thread` whose target raised terminates: the result pairs the
frames actually processed with `true` iff the worker reached a clean
end-of-stream. -/
def process_video_file_loop : List (Except String Nat) → List Nat × Bool
  | [] => ([], true)
  | Except.ok f :: rest =>
    let r := process_video_file_loop rest
    (f :: r.1, r.2)
  | Except.error _ :: _ => ([], false)

end VideoProcessor

/-- Per-camera status record.  `main.py` initialises each camera's dict with
keys `type`, `url`, `count`, `fall` (lines 23-28); the worker adds/overwrites
`timestamp`.  The Python key `type` is spelt `src_type` here. -/
structure CameraStatus where
  src_type : String
  url : Option String
  count : Nat
  fall : Bool
  timestamp : Option String
deriving DecidableEq, Repr

/-- Status write performed by the worker on every processed frame
(`process_video_file` lines 194-197 and `process_ip_camera` lines 275-278):
only the `count`, `fall` and `timestamp` entries are assigned. -/
def worker_status_update (s : CameraStatus) (people_count : Nat) (fall_detected : Bool)
    (now : String) : CameraStatus :=
  { s with count := people_count, fall := fall_detected, timestamp := some now }

/-- Status record installed by the `set_ip` route (`main.py` lines 56-63). -/
def set_ip_status (ip : String) (now : String) : CameraStatus :=
  ⟨"ip_camera", some ip, 0, false, some now⟩

/-- Status record installed by the `upload` route (`main.py` lines 95-102). -/
def upload_status (filename : String) (now : String) : CameraStatus :=
  ⟨"video_file", some filename, 0, false, some now⟩

/-- Status record installed by the `close_camera` route (`main.py`
lines 117-123); the dict has no `timestamp` key, modelled as `none`. -/
def close_camera_status : CameraStatus :=
  ⟨"offline", none, 0, false, none⟩

/-- Thread-liveness model for one camera's worker lifecycle.  `running` is the
processor's flag; `live_workers` counts worker threads of this camera that are
still executing their loop.  A worker exits only after observing
`self.running = False` in its loop condition (`process_video_file` line 178,
`process_ip_camera` line 220). -/
structure CameraWorkers where
  running : Bool
  live_workers : Nat
deriving DecidableEq, Repr

/-- Embedding of `start_ip_camera` (`video_processor.py` lines 293-297): set
`self.running = True` and start a new worker `Thread` (overwriting
`self.process_thread`).  Nothing here sets `running` to `False`, so no
previously live worker can observe `False` during the call: every worker live
before remains live and one is added. -/
def start_ip_camera (s : CameraWorkers) : CameraWorkers :=
  { running := true, live_workers := s.live_workers + 1 }

/-- Embedding of the `set_ip` route (`main.py` lines 47-73) restricted to the
worker lifecycle: it resets the status dict and then calls
`processor.start_ip_camera(ip)` on the camera's existing processor; it
contains no `stop()` call. -/
def set_ip_route (s : CameraWorkers) : CameraWorkers :=
  start_ip_camera s

/-- Drop-oldest push into a per-camera frame queue of capacity `maxsize`
(`queue.Queue(maxsize=10)`, `main.py` lines 15-20), as performed by the worker
at `video_processor.py` lines 200-202: `if full(): get()` (removes the oldest
entry) `; put(frame)`.  The head of the list is the oldest entry.  The
operation is total — the producer never blocks on a full queue. -/
def sink_push (maxsize : Nat) (q : List α) (x : α) : List α :=
  if q.length = maxsize then q.drop 1 ++ [x] else q ++ [x]

/-- One raw box of the YOLO result iterated at `video_processor.py`
lines 55-64: its class index `box.cls[0]`, confidence `box.conf[0]` and
coordinates `box.xyxy[0]`. -/
structure RawBox where
  cls : Nat
  conf : ℚ
  xyxy : BBox
deriving DecidableEq, Repr

namespace VideoProcessor

/-- Inner loop of `detect_people` over the boxes of one result
(lines 55-69): a box is admitted when `cls == 0 and conf > 0.5`;
`people_count` is incremented and a detection dict is appended with
`id = len(detections)` taken before the append. -/
def detect_people_boxes (boxes : List RawBox) (acc : Nat × List Detection) :
    Nat × List Detection :=
  boxes.foldl
    (fun s box =>
      if box.cls = 0 ∧ (0.5 : ℚ) < box.conf then
        (s.1 + 1, s.2 ++ [⟨box.xyxy, box.conf, s.2.length⟩])
      else s)
    acc

/-- Outer loop of `detect_people` over `results` (lines 52-54): each result's
`boxes` may be `None` (skipped) or a list of raw boxes. -/
def detect_people_results (results : List (Option (List RawBox)))
    (acc : Nat × List Detection) : Nat × List Detection :=
  results.foldl
    (fun s r =>
      match r with
      | none => s
      | some boxes => detect_people_boxes boxes s)
    acc

/-- Embedding of `detect_people` (lines 40-74).  `model` is the `self.model`
attribute: `none` when `load_model` failed (line 34); otherwise inference on a
frame either raises (`Except.error`, caught by the `except` arm at lines 72-74)
or yields a list of results.  The frame is an opaque identifier, returned
unchanged as in `return frame, people_count, detections`.  The function is
total: no path raises to the caller. -/
def detect_people
    (model : Option (Nat → Except String (List (Option (List RawBox)))))
    (frame : Nat) : Nat × Nat × List Detection :=
  match model with
  | none => (frame, 0, [])
  | some m =>
    match m frame with
    | Except.error _ => (frame, 0, [])
    | Except.ok results =>
      let s := detect_people_results results (0, [])
      (frame, s.1, s.2)

end VideoProcessor

/-- Filter stated by the spec for the Detector: keep a raw box iff its class
is `person` (class 0) and its confidence is strictly above 0.5. -/
def keep_person (box : RawBox) : Bool :=
  decide (box.cls = 0 ∧ (0.5 : ℚ) < box.conf)

/-- All raw boxes of a result list in iteration order, `None` results
contributing nothing. -/
def flat_boxes : List (Option (List RawBox)) → List RawBox
  | [] => []
  | none :: rest => flat_boxes rest
  | some bs :: rest => bs ++ flat_boxes rest

/-- Detections built from a list of kept raw boxes with consecutive ids
starting at `n`. -/
def with_ids (n : Nat) : List RawBox → List Detection
  | [] => []
  | b :: rest => ⟨b.xyxy, b.conf, n⟩ :: with_ids (n + 1) rest

/-- Qualification test stated by the spec for the Fall Classifier: a detection
qualifies iff its width is positive, its aspect ratio `height/width` is below
0.8, its vertical centre is below the 60% line of the frame, and its height
exceeds 30% of the frame height. -/
def qualifies_as_fall (frame_height : Nat) (d : Detection) : Bool :=
  decide (0 < d.bbox.x2 - d.bbox.x1
    ∧ ((d.bbox.y2 - d.bbox.y1 : Int) : ℚ) / ((d.bbox.x2 - d.bbox.x1 : Int) : ℚ) < 0.8
    ∧ ((d.bbox.y1 : ℚ) + (d.bbox.y2 : ℚ)) / 2 > (frame_height : ℚ) * 0.6
    ∧ ((d.bbox.y2 - d.bbox.y1 : Int) : ℚ) > (frame_height : ℚ) * 0.3)

section SinkLemmas

variable {α : Type _}

/-- Folding drop-oldest pushes of capacity 10 over a queue of length at most
10 keeps exactly the most recent 10 entries of queue-then-stream, in order. -/
lemma sink_push_foldl (fs : List α) : ∀ (q : List α), q.length ≤ 10 →
    List.foldl (sink_push 10) q fs = (q ++ fs).drop (q.length + fs.length - 10) := by
  induction fs with
  | nil =>
    intro q hq
    simp [Nat.sub_eq_zero_of_le hq]
  | cons x fs ih =>
    intro q hq
    rw [List.foldl_cons]
    by_cases hfull : q.length = 10
    · obtain ⟨a, t, rfl⟩ : ∃ a t, q = a :: t := by
        cases q with
        | nil => simp at hfull
        | cons a t => exact ⟨a, t, rfl⟩
      have ht : t.length = 9 := by simpa using hfull
      have h1 : sink_push 10 (a :: t) x = t ++ [x] := by
        simp [sink_push, hfull]
      have h2 : (t ++ [x]).length ≤ 10 := by simp [ht]
      rw [h1, ih (t ++ [x]) h2]
      have e1 : (t ++ [x]).length + fs.length - 10 = fs.length := by
        simp [ht]
      have e2 : (a :: t).length + (x :: fs).length - 10 = fs.length + 1 := by
        simp [ht]
      rw [e1, e2, List.cons_append, List.drop_succ_cons, List.append_assoc,
        List.singleton_append]
    · have h1 : sink_push 10 q x = q ++ [x] := by
        simp [sink_push, hfull]
      have h2 : (q ++ [x]).length ≤ 10 := by
        simp
        omega
      rw [h1, ih (q ++ [x]) h2]
      have e : (q ++ [x]).length + fs.length - 10 = q.length + (x :: fs).length - 10 := by
        simp
        omega
      rw [e, List.append_assoc, List.singleton_append]

end SinkLemmas

/-- C6: pushing 15 frames sequentially through the capacity-10 drop-oldest
push of `process_video_file` lines 200-202 into the initially empty per-camera
queue (`queue.Queue(maxsize=10)`, `main.py` lines 15-20) leaves exactly the
last 10 pushed frames, in arrival order with the oldest at the head; the push
is a total operation, so the producer never blocks. -/
theorem sink_push_last_ten (fs : List Nat) (h : fs.length = 15) :
    List.foldl (sink_push 10) [] fs = fs.drop 5
    ∧ (List.foldl (sink_push 10) [] fs).length = 10 := by
  have hmain := sink_push_foldl fs [] (by simp)
  simp only [List.nil_append, List.length_nil, Nat.zero_add] at hmain
  rw [h] at hmain
  norm_num at hmain
  refine ⟨hmain, ?_⟩
  rw [hmain]
  simp [h]

/-- Witness for C6 at the concrete frame stream `0, 1, ..., 14`. -/
theorem sink_push_last_ten_witness :
    List.foldl (sink_push 10) [] (List.range 15) = (List.range 15).drop 5
    ∧ (List.foldl (sink_push 10) [] (List.range 15)).length = 10 :=
  sink_push_last_ten (List.range 15) (by decide)

/-- C7: `stop` (lines 299-309) sets the running flag to false, joins the
worker with `timeout=2` and proceeds identically whether or not the join
completed, and drains the frame queue, so afterwards the sink holds no frame
that was queued before the call. -/
theorem stop_bounded_join_and_drain (p : VideoProcessor) (jb : Bool) (f : Nat) :
    (VideoProcessor.stop p jb).running = false
    ∧ (VideoProcessor.stop p jb).frame_queue = []
    ∧ (f ∈ p.frame_queue → f ∉ (VideoProcessor.stop p jb).frame_queue)
    ∧ VideoProcessor.stop p true = VideoProcessor.stop p false := by
  refine ⟨rfl, rfl, ?_, rfl⟩
  intro hf
  simp [VideoProcessor.stop]

/-- Witness for C7: stopping a running processor whose sink holds frame 7. -/
theorem stop_bounded_join_and_drain_witness :
    (VideoProcessor.stop ⟨1, true, [7], 5, 2, 3, []⟩ true).running = false
    ∧ (VideoProcessor.stop ⟨1, true, [7], 5, 2, 3, []⟩ true).frame_queue = []
    ∧ (7 : Nat) ∉ (VideoProcessor.stop ⟨1, true, [7], 5, 2, 3, []⟩ true).frame_queue
    ∧ VideoProcessor.stop ⟨1, true, [7], 5, 2, 3, []⟩ true
        = VideoProcessor.stop ⟨1, true, [7], 5, 2, 3, []⟩ false := by
  have h := stop_bounded_join_and_drain ⟨1, true, [7], 5, 2, 3, []⟩ true 7
  exact ⟨h.1, h.2.1, h.2.2.1 (by decide), h.2.2.2⟩

/-- C8: the worker's per-frame status write (`process_video_file`
lines 194-197, `process_ip_camera` lines 275-278) assigns exactly the
`count`, `fall` and `timestamp` entries and leaves the source type and
locator untouched, while the collaborator's `set_ip`, `upload` and
`close_camera` routes are the writers of the type and locator entries. -/
theorem worker_updates_only_count_fall_timestamp (s : CameraStatus) (pc : Nat)
    (fd : Bool) (now : String) (ip fn n2 : String) :
    (worker_status_update s pc fd now).src_type = s.src_type
    ∧ (worker_status_update s pc fd now).url = s.url
    ∧ (worker_status_update s pc fd now).count = pc
    ∧ (worker_status_update s pc fd now).fall = fd
    ∧ (worker_status_update s pc fd now).timestamp = some now
    ∧ (set_ip_status ip n2).src_type = "ip_camera"
    ∧ (set_ip_status ip n2).url = some ip
    ∧ (upload_status fn n2).src_type = "video_file"
    ∧ (upload_status fn n2).url = some fn
    ∧ close_camera_status.src_type = "offline"
    ∧ close_camera_status.url = none :=
  ⟨rfl, rfl, rfl, rfl, rfl, rfl, rfl, rfl, rfl, rfl, rfl⟩

/-- C2 fails on the code: `set_ip` (`main.py` lines 47-73) calls
`start_ip_camera` without stopping the prior pipeline, and `start_ip_camera`
only sets `running = True`, so after issuing `set_ip` twice from a fresh
camera two worker threads are live and both push into that camera's sink —
the one-worker-per-camera invariant is violated. -/
theorem set_ip_twice_two_live_workers :
    (set_ip_route (set_ip_route ⟨false, 0⟩)).live_workers = 2
    ∧ 1 < (set_ip_route (set_ip_route ⟨false, 0⟩)).live_workers :=
  ⟨rfl, by decide⟩

/-- C3 fails on the code: the loop body of `process_video_file`
(lines 178-204) contains no exception handler, so an exception raised while
processing one frame propagates out of the `while`, the worker terminates,
and the following frame (here frame 7) is never processed; the same stream
without the exception is processed to a clean end. -/
theorem frame_exception_kills_worker :
    VideoProcessor.process_video_file_loop [Except.error "cv2 error", Except.ok 7]
        = ([], false)
    ∧ VideoProcessor.process_video_file_loop [Except.ok 7] = ([7], true) :=
  ⟨rfl, rfl⟩

/-- The scan of `detect_fall` is the first detection satisfying the spec's
qualification test: detections are evaluated in input order, a detection with
non-positive width never produces a verdict, and the first qualifying
detection short-circuits the loop. -/
lemma detect_fall_eq_find (self : VideoProcessor) (dets : List Detection) (frame : Frame) :
    VideoProcessor.detect_fall self dets frame
      = ((dets.find? (qualifies_as_fall frame.height)).isSome,
         (dets.find? (qualifies_as_fall frame.height)).map (fun d => d.bbox)) := by
  induction dets with
  | nil => simp [VideoProcessor.detect_fall]
  | cons d rest ih =>
    have unfold_eq : VideoProcessor.detect_fall self (d :: rest) frame =
        (if 0 < d.bbox.x2 - d.bbox.x1 then
          if ((d.bbox.y2 - d.bbox.y1 : Int) : ℚ) / ((d.bbox.x2 - d.bbox.x1 : Int) : ℚ)
                < 0.8
              ∧ ((d.bbox.y1 : ℚ) + (d.bbox.y2 : ℚ)) / 2 > (frame.height : ℚ) * 0.6
              ∧ ((d.bbox.y2 - d.bbox.y1 : Int) : ℚ) > (frame.height : ℚ) * 0.3 then
            (true, some d.bbox)
          else VideoProcessor.detect_fall self rest frame
        else VideoProcessor.detect_fall self rest frame) := rfl
    by_cases h1 : (0 : Int) < d.bbox.x2 - d.bbox.x1
    · by_cases h2 :
          ((d.bbox.y2 - d.bbox.y1 : Int) : ℚ) / ((d.bbox.x2 - d.bbox.x1 : Int) : ℚ) < 0.8
          ∧ ((d.bbox.y1 : ℚ) + (d.bbox.y2 : ℚ)) / 2 > (frame.height : ℚ) * 0.6
          ∧ ((d.bbox.y2 - d.bbox.y1 : Int) : ℚ) > (frame.height : ℚ) * 0.3
      · have hq : qualifies_as_fall frame.height d = true := by
          simp only [qualifies_as_fall, decide_eq_true_eq]
          exact ⟨h1, h2⟩
        rw [unfold_eq, if_pos h1, if_pos h2, List.find?_cons_of_pos _ hq]
        rfl
      · have hq : ¬ qualifies_as_fall frame.height d = true := by
          simp only [qualifies_as_fall, decide_eq_true_eq]
          intro hcon
          exact h2 hcon.2
        rw [unfold_eq, if_pos h1, if_neg h2, List.find?_cons_of_neg _ hq]
        exact ih
    · have hq : ¬ qualifies_as_fall frame.height d = true := by
        simp only [qualifies_as_fall, decide_eq_true_eq]
        intro hcon
        exact h1 hcon.1
      rw [unfold_eq, if_neg h1, List.find?_cons_of_neg _ hq]
      exact ih

/-- C1: `detect_fall` evaluates the detections in input order; a detection
with non-positive width is skipped with no verdict; a detection qualifies iff
its aspect ratio is below 0.8, its box centre lies below the 60% line and its
height exceeds 30% of the frame height; the first qualifying detection
short-circuits the scan and its bounding box is the offending box — hence the
offending box, when present, is one of the input boxes — and with no
qualifying detection the verdict is `(false, none)`. -/
theorem detect_fall_first_qualifying (self : VideoProcessor)
    (detections : List Detection) (frame : Frame) :
    VideoProcessor.detect_fall self detections frame
      = ((detections.find? (qualifies_as_fall frame.height)).isSome,
         (detections.find? (qualifies_as_fall frame.height)).map (fun d => d.bbox))
    ∧ ∀ b, (VideoProcessor.detect_fall self detections frame).2 = some b →
        ∃ d, d ∈ detections ∧ d.bbox = b := by
  refine ⟨detect_fall_eq_find self detections frame, ?_⟩
  intro b hb
  rw [detect_fall_eq_find self detections frame] at hb
  have hb2 : (detections.find? (qualifies_as_fall frame.height)).map
      (fun d => d.bbox) = some b := hb
  obtain ⟨d, hd, hdb⟩ := Option.map_eq_some'.mp hb2
  exact ⟨d, List.mem_of_find?_eq_some hd, hdb⟩

/-- Witness for C1: with a tall narrow first box (aspect ratio 4.0, skipped)
and a wide low second box in a 480-pixel-high frame, the offending box is the
second input box. -/
theorem detect_fall_first_qualifying_witness :
    ∃ d, d ∈ [(⟨⟨0, 250, 50, 450⟩, 0.9, 0⟩ : Detection), ⟨⟨100, 250, 400, 450⟩, 0.9, 1⟩]
      ∧ d.bbox = (⟨100, 250, 400, 450⟩ : BBox) :=
  (detect_fall_first_qualifying (VideoProcessor.init 1)
      [⟨⟨0, 250, 50, 450⟩, 0.9, 0⟩, ⟨⟨100, 250, 400, 450⟩, 0.9, 1⟩] ⟨480, 640⟩).2
    ⟨100, 250, 400, 450⟩ (by norm_num [VideoProcessor.detect_fall])

/-- C9: `detect_fall` is deterministic and stateless — it reads no attribute
of the processor instance, so two calls with identical detection lists and
frame dimensions return identical verdicts regardless of processor state,
prior calls, or which camera's pipeline invokes it. -/
theorem detect_fall_pure (p q : VideoProcessor) (detections : List Detection)
    (frame : Frame) :
    VideoProcessor.detect_fall p detections frame
      = VideoProcessor.detect_fall q detections frame := by
  rw [detect_fall_eq_find, detect_fall_eq_find]

/-- The annotation routine run on a fresh processor instance for a list of
per-frame people counts, as the worker does once per processed frame
(`draw_detections` line 128 calls `draw_statistics` on every frame). -/
def run_draw_stats (cid : Nat) (frame : Frame) (counts : List Nat) : VideoProcessor :=
  counts.foldl (fun p c => VideoProcessor.draw_statistics p frame c false)
    (VideoProcessor.init cid)

/-- Folding `draw_statistics` adds the per-frame counts to
`total_people_count`. -/
lemma foldl_draw_total (frame : Frame) (counts : List Nat) : ∀ (p : VideoProcessor),
    (counts.foldl (fun q c => VideoProcessor.draw_statistics q frame c false)
        p).total_people_count
      = p.total_people_count + counts.sum := by
  induction counts with
  | nil => intro p; simp
  | cons c rest ih =>
    intro p
    rw [List.foldl_cons, ih]
    simp [VideoProcessor.draw_statistics]
    omega

/-- Folding `draw_statistics` increments `frame_count` once per frame. -/
lemma foldl_draw_frames (frame : Frame) (counts : List Nat) : ∀ (p : VideoProcessor),
    (counts.foldl (fun q c => VideoProcessor.draw_statistics q frame c false)
        p).frame_count
      = p.frame_count + counts.length := by
  induction counts with
  | nil => intro p; simp
  | cons c rest ih =>
    intro p
    rw [List.foldl_cons, ih]
    simp [VideoProcessor.draw_statistics]
    omega

/-- Folding `draw_statistics` takes the running maximum of the per-frame
counts into `max_people_count`. -/
lemma foldl_draw_max (frame : Frame) (counts : List Nat) : ∀ (p : VideoProcessor),
    (counts.foldl (fun q c => VideoProcessor.draw_statistics q frame c false)
        p).max_people_count
      = counts.foldl max p.max_people_count := by
  induction counts with
  | nil => intro p; simp
  | cons c rest ih =>
    intro p
    rw [List.foldl_cons, ih]
    simp [VideoProcessor.draw_statistics]

/-- C5: starting from a fresh processor, after the statistics routine has run
for the frames of `counts` (N = `counts.length` >= 1), `total_people_count`
is the exact sum, `frame_count` is N, `max_people_count` is the maximum, and
the rendered average is sum/N; each update is monotone in all three counters,
`stop()` leaves all three unchanged, and only a brand-new instance has them
at zero. -/
theorem draw_statistics_running_stats (counts : List Nat) (cid : Nat) (frame : Frame)
    (p : VideoProcessor) (c : Nat) (b jb : Bool) (h : counts ≠ []) :
    (run_draw_stats cid frame counts).total_people_count = counts.sum
    ∧ (run_draw_stats cid frame counts).frame_count = counts.length
    ∧ (run_draw_stats cid frame counts).max_people_count = counts.foldl max 0
    ∧ VideoProcessor.avg_count (run_draw_stats cid frame counts)
        = (counts.sum : ℚ) / (counts.length : ℚ)
    ∧ p.total_people_count ≤ (VideoProcessor.draw_statistics p frame c b).total_people_count
    ∧ p.frame_count ≤ (VideoProcessor.draw_statistics p frame c b).frame_count
    ∧ p.max_people_count ≤ (VideoProcessor.draw_statistics p frame c b).max_people_count
    ∧ (VideoProcessor.stop (run_draw_stats cid frame counts) jb).total_people_count
        = (run_draw_stats cid frame counts).total_people_count
    ∧ (VideoProcessor.stop (run_draw_stats cid frame counts) jb).frame_count
        = (run_draw_stats cid frame counts).frame_count
    ∧ (VideoProcessor.stop (run_draw_stats cid frame counts) jb).max_people_count
        = (run_draw_stats cid frame counts).max_people_count
    ∧ (VideoProcessor.init cid).total_people_count = 0
    ∧ (VideoProcessor.init cid).frame_count = 0
    ∧ (VideoProcessor.init cid).max_people_count = 0 := by
  have ht : (run_draw_stats cid frame counts).total_people_count = counts.sum := by
    have := foldl_draw_total frame counts (VideoProcessor.init cid)
    simpa [run_draw_stats, VideoProcessor.init] using this
  have hf : (run_draw_stats cid frame counts).frame_count = counts.length := by
    have := foldl_draw_frames frame counts (VideoProcessor.init cid)
    simpa [run_draw_stats, VideoProcessor.init] using this
  have hm : (run_draw_stats cid frame counts).max_people_count = counts.foldl max 0 := by
    have := foldl_draw_max frame counts (VideoProcessor.init cid)
    simpa [run_draw_stats, VideoProcessor.init] using this
  have hlen : 0 < counts.length := List.length_pos.mpr h
  refine ⟨ht, hf, hm, ?_, ?_, ?_, ?_, rfl, rfl, rfl, rfl, rfl, rfl⟩
  · simp only [VideoProcessor.avg_count, ht, hf]
    rw [Nat.max_eq_left hlen]
  · simp [VideoProcessor.draw_statistics]
  · simp [VideoProcessor.draw_statistics]
  · simp [VideoProcessor.draw_statistics]

/-- Witness for C5 at the concrete count stream `[3, 1, 2]`. -/
theorem draw_statistics_running_stats_witness :
    (run_draw_stats 1 ⟨480, 640⟩ [3, 1, 2]).total_people_count = [3, 1, 2].sum
    ∧ (run_draw_stats 1 ⟨480, 640⟩ [3, 1, 2]).frame_count = [3, 1, 2].length
    ∧ (run_draw_stats 1 ⟨480, 640⟩ [3, 1, 2]).max_people_count = [3, 1, 2].foldl max 0
    ∧ VideoProcessor.avg_count (run_draw_stats 1 ⟨480, 640⟩ [3, 1, 2])
        = (([3, 1, 2].sum : Nat) : ℚ) / (([3, 1, 2].length : Nat) : ℚ) := by
  have h := draw_statistics_running_stats [3, 1, 2] 1 ⟨480, 640⟩
    (VideoProcessor.init 2) 5 false true (by decide)
  exact ⟨h.1, h.2.1, h.2.2.1, h.2.2.2.1⟩

/-- Length of an id-assignment. -/
lemma with_ids_length (l : List RawBox) : ∀ n, (with_ids n l).length = l.length := by
  induction l with
  | nil => intro n; rfl
  | cons b rest ih => intro n; simp [with_ids, ih]

/-- Id-assignment distributes over append, shifting the start index. -/
lemma with_ids_append (l1 l2 : List RawBox) : ∀ n,
    with_ids n (l1 ++ l2) = with_ids n l1 ++ with_ids (n + l1.length) l2 := by
  induction l1 with
  | nil => intro n; simp [with_ids]
  | cons b rest ih =>
    intro n
    simp only [List.cons_append, with_ids, List.append_eq, ih (n + 1), List.length_cons]
    rw [show n + 1 + rest.length = n + (rest.length + 1) from by omega]

/-- The ids assigned by `with_ids` are the consecutive integers from `n`. -/
lemma with_ids_map_id (l : List RawBox) : ∀ n,
    (with_ids n l).map (fun d => d.id) = List.range' n l.length := by
  induction l with
  | nil => intro n; simp [with_ids]
  | cons b rest ih =>
    intro n
    simp [with_ids, ih (n + 1), List.range'_succ]

/-- Every detection built by `with_ids` carries the box and confidence of a
member of the source list. -/
lemma mem_with_ids (d : Detection) : ∀ (l : List RawBox) (n : Nat), d ∈ with_ids n l →
    ∃ box, box ∈ l ∧ d.bbox = box.xyxy ∧ d.confidence = box.conf := by
  intro l
  induction l with
  | nil => intro n h; simp [with_ids] at h
  | cons b rest ih =>
    intro n h
    simp only [with_ids, List.mem_cons] at h
    rcases h with h | h
    · exact ⟨b, List.mem_cons_self _ _, by rw [h], by rw [h]⟩
    · obtain ⟨box, hb, h1, h2⟩ := ih (n + 1) h
      exact ⟨box, List.mem_cons_of_mem _ hb, h1, h2⟩

/-- The people counter of the inner detection loop adds one per kept box. -/
lemma detect_people_boxes_fst (boxes : List RawBox) : ∀ (acc : Nat × List Detection),
    (VideoProcessor.detect_people_boxes boxes acc).1
      = acc.1 + (boxes.filter keep_person).length := by
  induction boxes with
  | nil => intro acc; simp [VideoProcessor.detect_people_boxes]
  | cons box rest ih =>
    intro acc
    by_cases hb : box.cls = 0 ∧ (0.5 : ℚ) < box.conf
    · have hk : keep_person box = true := by
        simp only [keep_person, decide_eq_true_eq]; exact hb
      have hstep : VideoProcessor.detect_people_boxes (box :: rest) acc
          = VideoProcessor.detect_people_boxes rest
              (acc.1 + 1, acc.2 ++ [⟨box.xyxy, box.conf, acc.2.length⟩]) := by
        simp only [VideoProcessor.detect_people_boxes, List.foldl_cons, if_pos hb]
      rw [hstep, ih, List.filter_cons_of_pos hk]
      simp
      omega
    · have hk : ¬ keep_person box = true := by
        simp only [keep_person, decide_eq_true_eq]; exact hb
      have hstep : VideoProcessor.detect_people_boxes (box :: rest) acc
          = VideoProcessor.detect_people_boxes rest acc := by
        simp only [VideoProcessor.detect_people_boxes, List.foldl_cons, if_neg hb]
      rw [hstep, ih, List.filter_cons_of_neg hk]

/-- The detection list of the inner loop appends the kept boxes with ids
continuing from the current list length. -/
lemma detect_people_boxes_snd (boxes : List RawBox) : ∀ (acc : Nat × List Detection),
    (VideoProcessor.detect_people_boxes boxes acc).2
      = acc.2 ++ with_ids acc.2.length (boxes.filter keep_person) := by
  induction boxes with
  | nil => intro acc; simp [VideoProcessor.detect_people_boxes, with_ids]
  | cons box rest ih =>
    intro acc
    by_cases hb : box.cls = 0 ∧ (0.5 : ℚ) < box.conf
    · have hk : keep_person box = true := by
        simp only [keep_person, decide_eq_true_eq]; exact hb
      have hstep : VideoProcessor.detect_people_boxes (box :: rest) acc
          = VideoProcessor.detect_people_boxes rest
              (acc.1 + 1, acc.2 ++ [⟨box.xyxy, box.conf, acc.2.length⟩]) := by
        simp only [VideoProcessor.detect_people_boxes, List.foldl_cons, if_pos hb]
      rw [hstep, ih, List.filter_cons_of_pos hk]
      simp [with_ids]
    · have hk : ¬ keep_person box = true := by
        simp only [keep_person, decide_eq_true_eq]; exact hb
      have hstep : VideoProcessor.detect_people_boxes (box :: rest) acc
          = VideoProcessor.detect_people_boxes rest acc := by
        simp only [VideoProcessor.detect_people_boxes, List.foldl_cons, if_neg hb]
      rw [hstep, ih, List.filter_cons_of_neg hk]

/-- The people counter of the result loop counts all kept boxes across
results. -/
lemma detect_people_results_fst (results : List (Option (List RawBox))) :
    ∀ (acc : Nat × List Detection),
    (VideoProcessor.detect_people_results results acc).1
      = acc.1 + ((flat_boxes results).filter keep_person).length := by
  induction results with
  | nil => intro acc; simp [VideoProcessor.detect_people_results, flat_boxes]
  | cons r rest ih =>
    intro acc
    cases r with
    | none =>
      have hstep : VideoProcessor.detect_people_results (none :: rest) acc
          = VideoProcessor.detect_people_results rest acc := rfl
      rw [hstep, ih]
      simp [flat_boxes]
    | some bs =>
      have hstep : VideoProcessor.detect_people_results (some bs :: rest) acc
          = VideoProcessor.detect_people_results rest
              (VideoProcessor.detect_people_boxes bs acc) := rfl
      rw [hstep, ih, detect_people_boxes_fst]
      simp [flat_boxes, List.filter_append]
      omega

/-- The detection list of the result loop appends the kept boxes of all
results with consecutive ids continuing from the current list length. -/
lemma detect_people_results_snd (results : List (Option (List RawBox))) :
    ∀ (acc : Nat × List Detection),
    (VideoProcessor.detect_people_results results acc).2
      = acc.2 ++ with_ids acc.2.length ((flat_boxes results).filter keep_person) := by
  induction results with
  | nil => intro acc; simp [VideoProcessor.detect_people_results, flat_boxes, with_ids]
  | cons r rest ih =>
    intro acc
    cases r with
    | none =>
      have hstep : VideoProcessor.detect_people_results (none :: rest) acc
          = VideoProcessor.detect_people_results rest acc := rfl
      rw [hstep, ih]
      simp [flat_boxes]
    | some bs =>
      have hstep : VideoProcessor.detect_people_results (some bs :: rest) acc
          = VideoProcessor.detect_people_results rest
              (VideoProcessor.detect_people_boxes bs acc) := rfl
      rw [hstep, ih, detect_people_boxes_snd]
      simp [flat_boxes, List.filter_append, with_ids_append, with_ids_length]

/-- On a successful inference, `detect_people` returns exactly the kept boxes
(class 0, confidence above 0.5), numbered consecutively from 0, with the
people count equal to their number. -/
lemma detect_people_ok_spec (m : Nat → Except String (List (Option (List RawBox))))
    (frame : Nat) (results : List (Option (List RawBox)))
    (hm : m frame = Except.ok results) :
    VideoProcessor.detect_people (some m) frame
      = (frame, ((flat_boxes results).filter keep_person).length,
         with_ids 0 ((flat_boxes results).filter keep_person)) := by
  simp only [VideoProcessor.detect_people, hm]
  rw [Prod.mk.injEq]
  refine ⟨rfl, ?_⟩
  rw [Prod.mk.injEq]
  constructor
  · rw [detect_people_results_fst results (0, [])]
    simp
  · rw [detect_people_results_snd results (0, [])]
    simp

/-- C4: `detect_people` (lines 40-74) never raises to its caller: with no
loaded model it returns a zero count and empty detection list for every
frame; an exception during inference is caught and yields the same; and on a
successful inference every returned detection stems from a raw box of class
person (class 0) with confidence strictly above 0.5 — boxes at or below the
threshold or of another class are discarded. -/
theorem detect_people_degrades_and_filters
    (model : Option (Nat → Except String (List (Option (List RawBox))))) (frame : Nat) :
    (model = none → VideoProcessor.detect_people model frame = (frame, 0, []))
    ∧ (∀ m e, model = some m → m frame = Except.error e →
        VideoProcessor.detect_people model frame = (frame, 0, []))
    ∧ (∀ d, d ∈ (VideoProcessor.detect_people model frame).2.2 →
        (0.5 : ℚ) < d.confidence)
    ∧ (∀ m results, model = some m → m frame = Except.ok results →
        ∀ d, d ∈ (VideoProcessor.detect_people model frame).2.2 →
          ∃ box, box ∈ flat_boxes results ∧ box.cls = 0 ∧ (0.5 : ℚ) < box.conf
            ∧ d.bbox = box.xyxy ∧ d.confidence = box.conf) := by
  refine ⟨?_, ?_, ?_, ?_⟩
  · intro h
    subst h
    rfl
  · intro m e hmod herr
    subst hmod
    simp [VideoProcessor.detect_people, herr]
  · intro d hd
    cases model with
    | none => simp [VideoProcessor.detect_people] at hd
    | some m =>
      cases hmf : m frame with
      | error e => simp [VideoProcessor.detect_people, hmf] at hd
      | ok results =>
        rw [detect_people_ok_spec m frame results hmf] at hd
        have hd2 : d ∈ with_ids 0 ((flat_boxes results).filter keep_person) := hd
        obtain ⟨box, hbox, h1, h2⟩ := mem_with_ids d _ 0 hd2
        have hmem := List.mem_filter.mp hbox
        have hk : box.cls = 0 ∧ (0.5 : ℚ) < box.conf := by
          have h3 := hmem.2
          simp only [keep_person, decide_eq_true_eq] at h3
          exact h3
        rw [h2]
        exact hk.2
  · intro m results hmod hok d hd
    subst hmod
    rw [detect_people_ok_spec m frame results hok] at hd
    have hd2 : d ∈ with_ids 0 ((flat_boxes results).filter keep_person) := hd
    obtain ⟨box, hbox, h1, h2⟩ := mem_with_ids d _ 0 hd2
    have hmem := List.mem_filter.mp hbox
    have hk : box.cls = 0 ∧ (0.5 : ℚ) < box.conf := by
      have h3 := hmem.2
      simp only [keep_person, decide_eq_true_eq] at h3
      exact h3
    exact ⟨box, hmem.1, hk.1, hk.2, h1, h2⟩

/-- Witness for C4: a stub inference returning one class-0 box of confidence
0.9 yields a returned detection whose confidence exceeds the 0.5 threshold. -/
theorem detect_people_degrades_and_filters_witness :
    (0.5 : ℚ) < (Detection.mk ⟨1, 2, 3, 4⟩ 0.9 0).confidence :=
  (detect_people_degrades_and_filters
      (some (fun _ => Except.ok [some [⟨0, 0.9, ⟨1, 2, 3, 4⟩⟩]])) 7).2.2.1
    ⟨⟨1, 2, 3, 4⟩, 0.9, 0⟩
    (by
      rw [detect_people_ok_spec (fun _ => Except.ok [some [⟨0, 0.9, ⟨1, 2, 3, 4⟩⟩]]) 7
          [some [⟨0, 0.9, ⟨1, 2, 3, 4⟩⟩]] rfl]
      norm_num [flat_boxes, keep_person, with_ids])

/-- C10: whenever the model produces results, the returned people count
equals the length of the returned detection list, and the ids number the
detections consecutively from 0 in list order. -/
theorem detect_people_count_and_ids
    (m : Nat → Except String (List (Option (List RawBox)))) (frame : Nat)
    (results : List (Option (List RawBox))) (hm : m frame = Except.ok results) :
    (VideoProcessor.detect_people (some m) frame).2.1
      = (VideoProcessor.detect_people (some m) frame).2.2.length
    ∧ (VideoProcessor.detect_people (some m) frame).2.2.map (fun d => d.id)
      = List.range (VideoProcessor.detect_people (some m) frame).2.2.length := by
  rw [detect_people_ok_spec m frame results hm]
  constructor
  · simp [with_ids_length]
  · simp [with_ids_map_id, with_ids_length, List.range_eq_range']

/-- A stub inference producing two above-threshold person boxes, one `None`
result in between, for the C10 witness. -/
def yolo_stub : Nat → Except String (List (Option (List RawBox))) :=
  fun _ => Except.ok [some [⟨0, 0.9, ⟨1, 2, 3, 4⟩⟩], none, some [⟨0, 0.8, ⟨5, 6, 7, 8⟩⟩]]

/-- Witness for C10 at the stub inference. -/
theorem detect_people_count_and_ids_witness :
    (VideoProcessor.detect_people (some yolo_stub) 3).2.1
      = (VideoProcessor.detect_people (some yolo_stub) 3).2.2.length
    ∧ (VideoProcessor.detect_people (some yolo_stub) 3).2.2.map (fun d => d.id)
      = List.range (VideoProcessor.detect_people (some yolo_stub) 3).2.2.length :=
  detect_people_count_and_ids yolo_stub 3
    [some [⟨0, 0.9, ⟨1, 2, 3, 4⟩⟩], none, some [⟨0, 0.8, ⟨5, 6, 7, 8⟩⟩]] rfl
